import Mathlib

/-!
Shallow embedding of the satellite-visibility calculator (`sat_math.py`,
`gui.py`) over the real numbers, together with theorems settling the
behavioural claims about the pipeline: time-scale conversion, Earth
rotation angle, geodetic-to-ECEF conversion, topocentric projection,
elevation/visibility evaluation, and the composed ECI→ECEF frame
transformation.
-/

namespace SatMath

noncomputable section

open Real

/-- Flattening of the WGS-84 ellipsoid (`F = 1/298.257223563` in the source). -/
def F : ℝ := 1 / 298.257223563

/-- Semi-major axis of the WGS-84 ellipsoid in meters (`A = 6378137`). -/
def A : ℝ := 6378137

/-- Squared eccentricity of the ellipsoid (`E2 = F * (2 - F)`). -/
def E2 : ℝ := F * (2 - F)

/-- Seconds per day (`day_sec = 86400`). -/
def day_sec : ℝ := 86400

/-- `jd_from_tt_offset`: days TT from the J2000 epoch to a full Julian day. -/
def jd_from_tt_offset (JDN_tt_from_J2000 : ℝ) : ℝ :=
  2451545 + JDN_tt_from_J2000

/-- `tt_utc_leap_seconds`: TT − UTC offset in seconds. -/
def tt_utc_leap_seconds (leap_seconds : ℝ) : ℝ :=
  32.184 + leap_seconds

/-- `era_from_ut1`: Earth Rotation Angle (radians) from a UT1 Julian date.
Python's `x % 1.0` is a true modulo yielding a value in `[0, 1)`, embedded
here as `Int.fract`. -/
def era_from_ut1 (jd_ut1 : ℝ) : ℝ :=
  2 * Real.pi * Int.fract (0.7790572732640 + 1.00273781191135448 * (jd_ut1 - 2451545))

/-- `math.radians`: degrees to radians. -/
def radians (deg : ℝ) : ℝ := deg * (Real.pi / 180)

/-- `math.degrees`: radians to degrees. -/
def degrees (rad : ℝ) : ℝ := rad * (180 / Real.pi)

/-- `geodetic_to_ecef`: observer geodetic coordinates to ECEF (WGS-84). -/
def geodetic_to_ecef (lat_deg lon_deg h_m : ℝ) : ℝ × ℝ × ℝ :=
  let lat := radians lat_deg
  let lon := radians lon_deg
  let N := A / Real.sqrt (1 - E2 * Real.sin lat ^ 2)
  ((N + h_m) * Real.cos lat * Real.cos lon,
   (N + h_m) * Real.cos lat * Real.sin lon,
   (N * (1 - E2) + h_m) * Real.sin lat)

/-- `enu_components`: ECEF relative vector to topocentric East/North/Up. -/
def enu_components (dxyz : ℝ × ℝ × ℝ) (lat_deg lon_deg : ℝ) : ℝ × ℝ × ℝ :=
  let lat := radians lat_deg
  let lon := radians lon_deg
  let sinp := Real.sin lat
  let cosp := Real.cos lat
  let sinl := Real.sin lon
  let cosl := Real.cos lon
  let dx := dxyz.1
  let dy := dxyz.2.1
  let dz := dxyz.2.2
  (-sinl * dx + cosl * dy,
   -sinp * cosl * dx - sinp * sinl * dy + cosp * dz,
   cosp * cosl * dx + cosp * sinl * dy + sinp * dz)

/-- `math.hypot`: Euclidean norm of two reals. -/
def hypot (x y : ℝ) : ℝ := Real.sqrt (x ^ 2 + y ^ 2)

/-- `math.atan2 y x` with the standard C/IEEE convention (no signed zeros
over ℝ, so `atan2 0 0 = 0`). -/
def atan2 (y x : ℝ) : ℝ :=
  if 0 < x then Real.arctan (y / x)
  else if x < 0 then
    (if 0 ≤ y then Real.arctan (y / x) + Real.pi else Real.arctan (y / x) - Real.pi)
  else
    (if 0 < y then Real.pi / 2 else if y < 0 then -(Real.pi / 2) else 0)

/-- `elevation_from_enu`: elevation angle in degrees from ENU components. -/
def elevation_from_enu (E N U : ℝ) : ℝ :=
  degrees (atan2 U (hypot E N))

/-- `R1`: rotation about the X axis. -/
def R1 (x : ℝ) : Matrix (Fin 3) (Fin 3) ℝ :=
  !![1, 0, 0;
     0, Real.cos x, -Real.sin x;
     0, Real.sin x, Real.cos x]

/-- `R2`: rotation about the Y axis. -/
def R2 (y : ℝ) : Matrix (Fin 3) (Fin 3) ℝ :=
  !![Real.cos y, 0, Real.sin y;
     0, 1, 0;
     -Real.sin y, 0, Real.cos y]

/-- `R3`: rotation about the Z axis. -/
def R3 (z : ℝ) : Matrix (Fin 3) (Fin 3) ℝ :=
  !![Real.cos z, Real.sin z, 0;
     -Real.sin z, Real.cos z, 0;
     0, 0, 1]

/-- `W_polar`: polar-motion matrix `R2(xp) @ R1(yp)`. -/
def W_polar (xp yp : ℝ) : Matrix (Fin 3) (Fin 3) ℝ :=
  R2 xp * R1 yp

/-- `erfa.DAS2R`: arcseconds to radians, `π / 648000` (= `π / (180·3600)`). -/
def DAS2R : ℝ := Real.pi / 648000

/-- The UT1 Julian date computed inside `eci_to_ecef_gcrs` (lines 148–152):
`jd_utc = jd_tt - tt_minus_utc`, then `jd_ut1 = jd_utc + DUT1 / day_sec`. -/
def jd_ut1_of (jd_tt leap_seconds DUT1 : ℝ) : ℝ :=
  let tt_minus_utc := tt_utc_leap_seconds leap_seconds / day_sec
  let jd_utc := jd_tt - tt_minus_utc
  jd_utc + DUT1 / day_sec

/-- `eci_to_ecef_gcrs`: ECI (GCRS) to ECEF. The precession-nutation matrix
is produced by `erfa.xys00b`/`erfa.c2ixys` in the source — an external
capability outside this repository — so the provider `C_from_XYs`
(JD(TT) → 3×3 matrix) is taken as a parameter here. -/
def eci_to_ecef_gcrs (C_from_XYs : ℝ → Matrix (Fin 3) (Fin 3) ℝ)
    (r_gcrs : Fin 3 → ℝ) (jd_tt leap_seconds DUT1 xp_as yp_as : ℝ) : Fin 3 → ℝ :=
  let jd_ut1 := jd_ut1_of jd_tt leap_seconds DUT1
  let theta := era_from_ut1 jd_ut1
  let R := R3 theta
  let C := C_from_XYs jd_tt
  let xp := xp_as * DAS2R
  let yp := yp_as * DAS2R
  let W := W_polar xp yp
  let C2T := W * R * C
  C2T.mulVec r_gcrs

/-- `visible = min_elevation <= elevation` (source `main`, and
`visible = (elev >= min_elev)` in `gui.compute`). -/
def visible (min_elevation elevation : ℝ) : Prop :=
  min_elevation ≤ elevation

/-- Orthonormality of a 3×3 real matrix as the spec states it: columns and
rows are orthonormal and the determinant is +1. -/
def orthonormal3 (M : Matrix (Fin 3) (Fin 3) ℝ) : Prop :=
  M.transpose * M = 1 ∧ M * M.transpose = 1 ∧ M.det = 1

/-! ### Helper lemmas about the rotation matrices -/

lemma R1_transpose (x : ℝ) :
    (R1 x).transpose
      = !![1, 0, 0; 0, Real.cos x, Real.sin x; 0, -Real.sin x, Real.cos x] := by
  ext i j
  fin_cases i <;> fin_cases j <;> rfl

lemma R2_transpose (y : ℝ) :
    (R2 y).transpose
      = !![Real.cos y, 0, -Real.sin y; 0, 1, 0; Real.sin y, 0, Real.cos y] := by
  ext i j
  fin_cases i <;> fin_cases j <;> rfl

lemma R3_transpose (z : ℝ) :
    (R3 z).transpose
      = !![Real.cos z, -Real.sin z, 0; Real.sin z, Real.cos z, 0; 0, 0, 1] := by
  ext i j
  fin_cases i <;> fin_cases j <;> rfl

lemma R1_orthogonal (x : ℝ) : (R1 x).transpose * R1 x = 1 := by
  rw [R1_transpose, R1, Matrix.mul_fin_three, Matrix.one_fin_three]
  ext i j
  fin_cases i <;> fin_cases j <;>
    simp [Matrix.vecHead, Matrix.vecTail] <;> nlinarith [Real.sin_sq_add_cos_sq x]

lemma R2_orthogonal (y : ℝ) : (R2 y).transpose * R2 y = 1 := by
  rw [R2_transpose, R2, Matrix.mul_fin_three, Matrix.one_fin_three]
  ext i j
  fin_cases i <;> fin_cases j <;>
    simp [Matrix.vecHead, Matrix.vecTail] <;> nlinarith [Real.sin_sq_add_cos_sq y]

lemma R3_orthogonal (z : ℝ) : (R3 z).transpose * R3 z = 1 := by
  rw [R3_transpose, R3, Matrix.mul_fin_three, Matrix.one_fin_three]
  ext i j
  fin_cases i <;> fin_cases j <;>
    simp [Matrix.vecHead, Matrix.vecTail] <;> nlinarith [Real.sin_sq_add_cos_sq z]

lemma R1_det (x : ℝ) : (R1 x).det = 1 := by
  rw [R1, Matrix.det_fin_three]
  simp
  nlinarith [Real.sin_sq_add_cos_sq x]

lemma R2_det (y : ℝ) : (R2 y).det = 1 := by
  rw [R2, Matrix.det_fin_three]
  simp
  nlinarith [Real.sin_sq_add_cos_sq y]

lemma R3_det (z : ℝ) : (R3 z).det = 1 := by
  rw [R3, Matrix.det_fin_three]
  simp
  nlinarith [Real.sin_sq_add_cos_sq z]

lemma orthonormal3_of (M : Matrix (Fin 3) (Fin 3) ℝ)
    (h1 : M.transpose * M = 1) (h2 : M.det = 1) : orthonormal3 M :=
  ⟨h1, Matrix.mul_eq_one_comm.mp h1, h2⟩

lemma orthonormal3_R1 (x : ℝ) : orthonormal3 (R1 x) :=
  orthonormal3_of _ (R1_orthogonal x) (R1_det x)

lemma orthonormal3_R2 (y : ℝ) : orthonormal3 (R2 y) :=
  orthonormal3_of _ (R2_orthogonal y) (R2_det y)

lemma orthonormal3_R3 (z : ℝ) : orthonormal3 (R3 z) :=
  orthonormal3_of _ (R3_orthogonal z) (R3_det z)

lemma transpose_mul_self_of_mul (a b : Matrix (Fin 3) (Fin 3) ℝ)
    (ha : a.transpose * a = 1) (hb : b.transpose * b = 1) :
    (a * b).transpose * (a * b) = 1 := by
  rw [Matrix.transpose_mul, Matrix.mul_assoc, ← Matrix.mul_assoc a.transpose, ha,
    Matrix.one_mul, hb]

lemma orthonormal3_mul (a b : Matrix (Fin 3) (Fin 3) ℝ)
    (ha : orthonormal3 a) (hb : orthonormal3 b) : orthonormal3 (a * b) := by
  refine orthonormal3_of _ (transpose_mul_self_of_mul a b ha.1 hb.1) ?_
  rw [Matrix.det_mul, ha.2.2, hb.2.2, mul_one]

lemma orthonormal3_W_polar (xp yp : ℝ) : orthonormal3 (W_polar xp yp) :=
  orthonormal3_mul _ _ (orthonormal3_R2 xp) (orthonormal3_R1 yp)

lemma R1_zero : R1 0 = 1 := by
  simp [R1, Matrix.one_fin_three]

lemma R2_zero : R2 0 = 1 := by
  simp [R2, Matrix.one_fin_three]

lemma R3_zero : R3 0 = 1 := by
  simp [R3, Matrix.one_fin_three]

lemma eci_unfold (Cp : ℝ → Matrix (Fin 3) (Fin 3) ℝ) (r : Fin 3 → ℝ)
    (jd_tt ls dut1 xp_as yp_as : ℝ) :
    eci_to_ecef_gcrs Cp r jd_tt ls dut1 xp_as yp_as
      = (W_polar (xp_as * DAS2R) (yp_as * DAS2R)
          * R3 (era_from_ut1 (jd_ut1_of jd_tt ls dut1))
          * Cp jd_tt).mulVec r := rfl

lemma roundtrip_exact (M : Matrix (Fin 3) (Fin 3) ℝ)
    (hM : M.transpose * M = 1) (r : Fin 3 → ℝ) :
    M.transpose.mulVec (M.mulVec r) = r := by
  rw [Matrix.mulVec_mulVec, hM, Matrix.one_mulVec]

lemma F_bounds : 0 < F ∧ F < 1 := by
  constructor <;> (unfold F; norm_num)

lemma one_sub_E2 : 1 - E2 = (1 - F) ^ 2 := by
  unfold E2; ring

lemma radians_ninety : radians 90 = Real.pi / 2 := by
  unfold radians; ring

lemma geodetic_pole (lon : ℝ) :
    geodetic_to_ecef 90 lon 0 = (0, 0, A * (1 - F)) := by
  unfold geodetic_to_ecef
  rw [radians_ninety]
  simp [Real.sin_pi_div_two, Real.cos_pi_div_two]
  have hF := F_bounds
  have hs : Real.sqrt (1 - E2) = 1 - F := by
    rw [one_sub_E2, Real.sqrt_sq (by linarith [hF.2])]
  rw [hs]
  have hne : (1 : ℝ) - F ≠ 0 := by linarith [hF.2]
  field_simp
  unfold A
  nlinarith [hF.1, hF.2, one_sub_E2]

lemma atan2_bounds (y x : ℝ) (hx : 0 ≤ x) :
    -(Real.pi / 2) ≤ atan2 y x ∧ atan2 y x ≤ Real.pi / 2 := by
  unfold atan2
  split_ifs with h1 h2 h3 h4 h5
  · exact ⟨le_of_lt (Real.neg_pi_div_two_lt_arctan _),
      le_of_lt (Real.arctan_lt_pi_div_two _)⟩
  · linarith
  · linarith
  · exact ⟨by linarith [Real.pi_pos], le_refl _⟩
  · exact ⟨le_refl _, by linarith [Real.pi_pos]⟩
  · constructor <;> linarith [Real.pi_pos]

/-! ### Claim theorems -/

/-- C1: for every inertial position vector and every set of time/orientation
inputs (and every precession-nutation provider), the Earth-fixed output of
`eci_to_ecef_gcrs` equals `M.mulVec r` where `M = W * R * C` in this exact
left-to-right order — equivalently, the result of applying `C`, then `R`,
then `W` to the vector. -/
theorem frame_transform_applies_WRC
    (Cp : ℝ → Matrix (Fin 3) (Fin 3) ℝ) (r : Fin 3 → ℝ)
    (jd_tt ls dut1 xp_as yp_as : ℝ) :
    eci_to_ecef_gcrs Cp r jd_tt ls dut1 xp_as yp_as
      = (W_polar (xp_as * DAS2R) (yp_as * DAS2R)
          * R3 (era_from_ut1 (jd_ut1_of jd_tt ls dut1))
          * Cp jd_tt).mulVec r ∧
    eci_to_ecef_gcrs Cp r jd_tt ls dut1 xp_as yp_as
      = (W_polar (xp_as * DAS2R) (yp_as * DAS2R)).mulVec
          ((R3 (era_from_ut1 (jd_ut1_of jd_tt ls dut1))).mulVec
            ((Cp jd_tt).mulVec r)) := by
  refine ⟨eci_unfold Cp r jd_tt ls dut1 xp_as yp_as, ?_⟩
  rw [eci_unfold, Matrix.mulVec_mulVec, Matrix.mulVec_mulVec]

/-- C2: if the precession-nutation provider returns a matrix with orthonormal
columns, then applying the composed transform `M = W·R·C` and then the
transpose of `M` recovers the input vector to within `1e-6` in each
component (in fact exactly, since `M` is orthonormal). -/
theorem frame_transform_roundtrip_transpose
    (Cp : ℝ → Matrix (Fin 3) (Fin 3) ℝ) (r : Fin 3 → ℝ)
    (jd_tt ls dut1 xp_as yp_as : ℝ)
    (hC : (Cp jd_tt).transpose * Cp jd_tt = 1) (i : Fin 3) :
    |((W_polar (xp_as * DAS2R) (yp_as * DAS2R)
        * R3 (era_from_ut1 (jd_ut1_of jd_tt ls dut1))
        * Cp jd_tt).transpose.mulVec
          (eci_to_ecef_gcrs Cp r jd_tt ls dut1 xp_as yp_as)) i - r i| ≤ 1e-6 := by
  have hMo : (W_polar (xp_as * DAS2R) (yp_as * DAS2R)
      * R3 (era_from_ut1 (jd_ut1_of jd_tt ls dut1))
      * Cp jd_tt).transpose
      * (W_polar (xp_as * DAS2R) (yp_as * DAS2R)
        * R3 (era_from_ut1 (jd_ut1_of jd_tt ls dut1))
        * Cp jd_tt) = 1 :=
    transpose_mul_self_of_mul _ _
      (transpose_mul_self_of_mul _ _ (orthonormal3_W_polar _ _).1 (R3_orthogonal _)) hC
  rw [eci_unfold, roundtrip_exact _ hMo r]
  simp
  norm_num

/-- C2 witness: round-trip at a concrete input (identity provider,
`r = (1, 0, 0)`, JD(TT) = 2451545, 37 leap seconds). -/
theorem frame_transform_roundtrip_transpose_witness :
    |((W_polar (0 * DAS2R) (0 * DAS2R)
        * R3 (era_from_ut1 (jd_ut1_of 2451545 37 0))
        * (fun _ : ℝ => (1 : Matrix (Fin 3) (Fin 3) ℝ)) 2451545).transpose.mulVec
          (eci_to_ecef_gcrs (fun _ => 1) ![1, 0, 0] 2451545 37 0 0 0)) 0
      - (![1, 0, 0] : Fin 3 → ℝ) 0| ≤ 1e-6 :=
  frame_transform_roundtrip_transpose (fun _ => 1) ![1, 0, 0] 2451545 37 0 0 0
    (by simp) 0

/-- C3: every matrix produced by the core — `R1 θ`, `R2 θ`, `R3 θ`, the
polar-motion matrix `W_polar xp yp`, and the composed matrix `W·R·C` for an
orthonormal `C` — is orthonormal (orthonormal rows and columns, determinant
+1), and composition preserves this property. -/
theorem core_matrices_orthonormal :
    (∀ x : ℝ, orthonormal3 (R1 x)) ∧
    (∀ y : ℝ, orthonormal3 (R2 y)) ∧
    (∀ z : ℝ, orthonormal3 (R3 z)) ∧
    (∀ xp yp : ℝ, orthonormal3 (W_polar xp yp)) ∧
    (∀ a b : Matrix (Fin 3) (Fin 3) ℝ,
      orthonormal3 a → orthonormal3 b → orthonormal3 (a * b)) ∧
    (∀ (c : Matrix (Fin 3) (Fin 3) ℝ) (theta xp yp : ℝ), orthonormal3 c →
      orthonormal3 (W_polar xp yp * R3 theta * c)) :=
  ⟨orthonormal3_R1, orthonormal3_R2, orthonormal3_R3, orthonormal3_W_polar,
    orthonormal3_mul,
    fun c theta xp yp hc =>
      orthonormal3_mul _ _
        (orthonormal3_mul _ _ (orthonormal3_W_polar xp yp) (orthonormal3_R3 theta)) hc⟩

/-- C3 witness: the composed matrix at concrete angles with the identity
precession-nutation matrix is orthonormal. -/
theorem core_matrices_orthonormal_witness :
    orthonormal3 (W_polar 0 0 * R3 0 * 1) :=
  core_matrices_orthonormal.2.2.2.2.2 1 0 0 0 (by simp [orthonormal3])

/-- C4 counterexample: `geodetic_to_ecef` at the north pole does not return
`(0, 0, A·(1−e²))` — the code's third component is `A·√(1−e²)`. -/
theorem geodetic_pole_counterexample :
    geodetic_to_ecef 90 0 0 ≠ (0, 0, A * (1 - E2)) := by
  rw [geodetic_pole 0]
  intro h
  have h3 := congrArg (fun p : ℝ × ℝ × ℝ => p.2.2) h
  simp only at h3
  unfold A E2 F at h3
  norm_num at h3

/-- C4 (amended): for every longitude, `geodetic_to_ecef` applied to
latitude 90°, height 0, returns `(0, 0, A·√(1−e²))` ≈ (0, 0, 6356752.314). -/
theorem geodetic_pole_amended (lon : ℝ) :
    geodetic_to_ecef 90 lon 0 = (0, 0, A * Real.sqrt (1 - E2)) := by
  rw [geodetic_pole lon]
  have hs : Real.sqrt (1 - E2) = 1 - F := by
    rw [one_sub_E2, Real.sqrt_sq (by linarith [F_bounds.2])]
  rw [hs]

/-- C5: if the Earth Rotation Angle computed from the inputs is 0, the
precession-nutation provider returns the identity at the given JD(TT), and
`xp = yp = 0`, then the Earth-fixed result equals the inertial input
exactly. -/
theorem identity_transform
    (Cp : ℝ → Matrix (Fin 3) (Fin 3) ℝ) (r : Fin 3 → ℝ) (jd_tt ls dut1 : ℝ)
    (hERA : era_from_ut1 (jd_ut1_of jd_tt ls dut1) = 0)
    (hC : Cp jd_tt = 1) :
    eci_to_ecef_gcrs Cp r jd_tt ls dut1 0 0 = r := by
  rw [eci_unfold, hERA, hC, R3_zero]
  simp [W_polar, R1_zero, R2_zero]

/-- C5 witness: a concrete JD(TT) at which the ERA is exactly zero, with the
identity provider, returns the input vector unchanged. -/
theorem identity_transform_witness :
    eci_to_ecef_gcrs (fun _ => 1) ![1, 2, 3]
      (2451545 + 32.184 / 86400 + (1 - 0.7790572732640) / 1.00273781191135448)
      0 0 0 0 = ![1, 2, 3] := by
  apply identity_transform
  · unfold era_from_ut1 jd_ut1_of tt_utc_leap_seconds day_sec
    have h1 : (0.7790572732640 : ℝ) + 1.00273781191135448 *
        ((2451545 + 32.184 / 86400 + (1 - 0.7790572732640) / 1.00273781191135448)
          - (32.184 + 0) / 86400 + 0 / 86400 - 2451545) = 1 := by
      norm_num
    rw [h1, Int.fract_one, mul_zero]
  · rfl

/-- C6: for every real JD(UT1) — including dates before J2000, where the day
offset is negative — the fractional turn is computed by a true modulo
(`Int.fract`), lies in `[0, 1)`, and hence the Earth Rotation Angle lies in
`[0, 2π)`. -/
theorem era_range (jd_ut1 : ℝ) :
    era_from_ut1 jd_ut1
        = 2 * Real.pi
          * Int.fract (0.7790572732640 + 1.00273781191135448 * (jd_ut1 - 2451545)) ∧
    0 ≤ Int.fract (0.7790572732640 + 1.00273781191135448 * (jd_ut1 - 2451545)) ∧
    Int.fract (0.7790572732640 + 1.00273781191135448 * (jd_ut1 - 2451545)) < 1 ∧
    0 ≤ era_from_ut1 jd_ut1 ∧ era_from_ut1 jd_ut1 < 2 * Real.pi := by
  refine ⟨rfl, Int.fract_nonneg _, Int.fract_lt_one _, ?_, ?_⟩
  · unfold era_from_ut1
    have h0 := Int.fract_nonneg (0.7790572732640 + 1.00273781191135448 * (jd_ut1 - 2451545))
    nlinarith [Real.pi_pos]
  · unfold era_from_ut1
    have h1 := Int.fract_lt_one (0.7790572732640 + 1.00273781191135448 * (jd_ut1 - 2451545))
    nlinarith [Real.pi_pos]

/-- C7: for every JD(TT), non-negative integer leap-second count, and DUT1,
the UT1 Julian date produced inside the pipeline equals
`JD(TT) − (32.184 + leapSeconds)/86400 + DUT1/86400`, formed by first
subtracting the TT−UTC offset in days and then adding DUT1 in days. -/
theorem time_scale_conversion (jd_tt : ℝ) (leap_seconds : ℕ) (DUT1 : ℝ) :
    jd_ut1_of jd_tt leap_seconds DUT1
        = jd_tt - (32.184 + (leap_seconds : ℝ)) / 86400 + DUT1 / 86400 ∧
    jd_ut1_of jd_tt leap_seconds DUT1
        = (jd_tt - tt_utc_leap_seconds leap_seconds / day_sec) + DUT1 / day_sec :=
  ⟨rfl, rfl⟩

/-- C8: when the relative vector is exactly zero (satellite and observer
coincide), the topocentric projection yields `E = N = U = 0` and the
elevation is defined and equals exactly 0 degrees (`atan2 0 0 = 0`). -/
theorem coincident_positions_zero_elevation (lat_deg lon_deg : ℝ) :
    enu_components (0, 0, 0) lat_deg lon_deg = (0, 0, 0) ∧
    elevation_from_enu 0 0 0 = 0 := by
  constructor
  · unfold enu_components
    simp
  · unfold elevation_from_enu atan2 hypot degrees
    norm_num

/-- C9: the visibility decision is `visible = (elevation ≥ threshold)`, with
the boundary inclusive: an elevation exactly equal to the threshold is
visible. -/
theorem visibility_inclusive_threshold (elevation min_elev : ℝ) :
    (visible min_elev elevation ↔ elevation ≥ min_elev) ∧
    visible elevation elevation :=
  ⟨Iff.rfl, le_refl _⟩

/-- C10: for all real ENU components, the elevation angle
`degrees (atan2 U (hypot E N))` lies in `[−90, 90]` degrees, because the
second `atan2` argument is a non-negative square root. -/
theorem elevation_within_ninety (E N U : ℝ) :
    -90 ≤ elevation_from_enu E N U ∧ elevation_from_enu E N U ≤ 90 := by
  have hx : (0 : ℝ) ≤ hypot E N := Real.sqrt_nonneg _
  obtain ⟨h1, h2⟩ := atan2_bounds U (hypot E N) hx
  unfold elevation_from_enu degrees
  have hc : 0 < 180 / Real.pi := by positivity
  constructor
  · have hm := mul_le_mul_of_nonneg_right h1 (le_of_lt hc)
    have he : -(Real.pi / 2) * (180 / Real.pi) = -90 := by field_simp; ring
    linarith [he ▸ hm]
  · have hm := mul_le_mul_of_nonneg_right h2 (le_of_lt hc)
    have he : (Real.pi / 2) * (180 / Real.pi) = 90 := by field_simp; ring
    linarith [he ▸ hm]

end

end SatMath
